import Mathlib

/-!
Verification of the SignBridge core against its specification.

This file gives a shallow embedding of the core logic of the repository:

* `src/core/predictor.py` — the real-time prediction stabilizer
  (`Predictor.predict`, `Predictor.reset`, `Predictor.load_model`,
  `Predictor.get_current_prediction`, and the two bounded deques it owns);
* `src/utils/file_ops.py` — the on-disk sequence store
  (`save_sequence`, `load_sequence`, `rename_label`, `delete_sequence`,
  `get_sequence_count`, `get_dataset_labels`, `get_dataset_stats`);
* `src/core/dataset_manager.py` — `DatasetManager.save_captured_sequence`
  and `DatasetManager.validate_dataset`.

Machine floats are modelled by `ℚ`, numpy arrays by lists, `collections.deque`
with a `maxlen` by `dequePush`, the filesystem under the dataset root by the
`Store` structure, and the external Keras classifier by an explicit function
argument returning `Except Unit (List ℚ)` (an `Except.error` models the
classifier raising during `model.predict`).
-/

/-- `SEQUENCE_LENGTH` from `src/utils/config.py` (L = 30 frames). -/
def SEQUENCE_LENGTH : Nat := 30

/-- `PREDICTION_CONSISTENCY_FRAMES` from `src/utils/config.py` (C = 3). -/
def PREDICTION_CONSISTENCY_FRAMES : Nat := 3

/-- `PREDICTION_CONFIDENCE_THRESHOLD` from `src/utils/config.py` (0.8). -/
def PREDICTION_CONFIDENCE_THRESHOLD : ℚ := 8/10

/-- `KEYPOINTS_PER_FRAME` from `src/utils/config.py` (63). -/
def KEYPOINTS_PER_FRAME : Nat := 63

/-- A keypoint frame: a numpy vector of floats, modelled as a list of `ℚ`. -/
abbrev Frame := List ℚ

/-- The all-zero keypoint frame `np.zeros(63)`. -/
def zeroFrame : Frame := List.replicate KEYPOINTS_PER_FRAME 0

/-- `collections.deque(maxlen := n)` push: append on the right, evicting from
the left whatever exceeds the capacity `n`. -/
def dequePush (n : Nat) (xs : List α) (x : α) : List α :=
  let ys := xs ++ [x]
  if n < ys.length then ys.drop (ys.length - n) else ys

/-- `np.argmax` on a list of probabilities: the index of the first maximal
element (ties resolve to the lowest index). -/
def argmaxAux : List ℚ → Nat → Nat → ℚ → Nat
  | [], _, best, _ => best
  | x :: xs, i, best, bestVal =>
      if bestVal < x then argmaxAux xs (i + 1) i x
      else argmaxAux xs (i + 1) best bestVal

/-- `np.argmax` over a probability vector (0 on the empty list, which the
real `np.argmax` rejects by raising; `Predictor.predictFull` guards that
case separately). -/
def argmaxQ : List ℚ → Nat
  | [] => 0
  | x :: xs => argmaxAux xs 1 0 x

/-- `len(np.unique(recent_predictions)) == 1` for a nonempty list: all
entries are the identical class index. -/
def allEqual : List Nat → Bool
  | [] => true
  | x :: xs => xs.all (fun y => y == x)

/-- `self.labels[predicted_idx] if predicted_idx < len(self.labels) else
str(predicted_idx)` from `Predictor.predict`. -/
def labelFor (labels : List String) (idx : Nat) : String :=
  if h : idx < labels.length then labels.get ⟨idx, h⟩ else toString idx

/-- The mutable state of `Predictor` (`src/core/predictor.py`).
`model_loaded` stands for `self.model is not None`. -/
structure PredictorState where
  model_loaded : Bool
  labels : List String
  sequence : List Frame
  predictions : List Nat
  current_prediction : Option String
  current_confidence : ℚ
deriving DecidableEq

/-- The classifier adapter: `self.model.predict` on a snapshot of the
sequence buffer; `Except.error` models the call raising an exception. -/
abbrev Cls := List Frame → Except Unit (List ℚ)

/-- The `try:` block of `Predictor.predict`, entered once the sequence buffer
is full, given the classifier's outcome on the snapshot.  A raised exception
(`Except.error`, or the `np.argmax` of an empty vector) is caught and yields
`(None, 0.0)` with no push onto the prediction history. -/
def Predictor.predictFull (s : PredictorState) (threshold : ℚ)
    (out : Except Unit (List ℚ)) : PredictorState × (Option String × ℚ) :=
  match out with
  | .error _ => (s, (none, 0))
  | .ok probs =>
    if probs = [] then (s, (none, 0))
    else
      let predicted_idx := argmaxQ probs
      let confidence := probs.getD predicted_idx 0
      let s2 : PredictorState :=
        { s with predictions :=
            dequePush PREDICTION_CONSISTENCY_FRAMES s.predictions predicted_idx }
      if PREDICTION_CONSISTENCY_FRAMES ≤ s2.predictions.length ∧
          allEqual s2.predictions = true ∧ threshold < confidence then
        let label := labelFor s2.labels predicted_idx
        ({ s2 with current_prediction := some label,
                   current_confidence := confidence },
         (some label, confidence))
      else (s2, (none, confidence))

/-- `Predictor.predict` (`src/core/predictor.py`): push the frame onto the
ring buffer, return `(None, 0.0)` while the model is absent or the buffer is
not yet full, otherwise run the classifier on the snapshot. -/
def Predictor.predict (s : PredictorState) (classify : Cls) (keypoints : Frame)
    (threshold : ℚ) : PredictorState × (Option String × ℚ) :=
  if s.model_loaded = false then (s, (none, 0))
  else
    let s1 : PredictorState :=
      { s with sequence := dequePush SEQUENCE_LENGTH s.sequence keypoints }
    if s1.sequence.length < SEQUENCE_LENGTH then (s1, (none, 0))
    else Predictor.predictFull s1 threshold (classify s1.sequence)

/-- `Predictor.reset`: clear both deques and the stored stable pair. -/
def Predictor.reset (s : PredictorState) : PredictorState :=
  { s with sequence := [], predictions := [],
           current_prediction := none, current_confidence := 0 }

/-- Outcome of `ModelBuilder.load_model` inside `Predictor.load_model`:
the call raised, returned `None`, or returned a model. -/
inductive LoadOutcome where
  | raised
  | noModel
  | loaded
deriving DecidableEq

/-- `Predictor.load_model`: on a raise nothing is assigned and `False` is
returned; on a `None` result the model slot is cleared and `False` is
returned; on success the labels are installed when the supplied list is
truthy (nonempty) and the whole prediction state is `reset`. -/
def Predictor.load_model (s : PredictorState) (outcome : LoadOutcome)
    (labels : List String) : PredictorState × Bool :=
  match outcome with
  | .raised => (s, false)
  | .noModel => ({ s with model_loaded := false }, false)
  | .loaded =>
    let s1 : PredictorState := { s with model_loaded := true }
    let s2 : PredictorState :=
      if labels.isEmpty then s1 else { s1 with labels := labels }
    (Predictor.reset s2, true)

/-- `Predictor.get_current_prediction`: the stored stable pair. -/
def Predictor.get_current_prediction (s : PredictorState) :
    Option String × ℚ :=
  (s.current_prediction, s.current_confidence)

/-- Iterating `Predictor.predict` over a stream of frames, keeping the
final state (the capture/prediction loop). -/
def runState (classify : Cls) (threshold : ℚ) :
    PredictorState → List Frame → PredictorState
  | s, [] => s
  | s, f :: fs =>
      runState classify threshold (Predictor.predict s classify f threshold).1 fs

/-! ## The on-disk sequence store (`src/utils/file_ops.py`)

The dataset root holds one directory per label; a label directory holds one
directory per sequence index; a sequence directory may hold the consolidated
`keypoints.npy` file and/or individually numbered legacy frame files
`<i>.npy`.  Directory listings are modelled as association lists. -/

/-- One sequence directory: the optional consolidated `keypoints.npy`
content, and the legacy per-frame files keyed by frame number. -/
structure SeqDir where
  consolidated : Option (List Frame)
  frames : List (Nat × Frame)
deriving DecidableEq

/-- One label directory: its sequence sub-directories keyed by index. -/
structure LabelDir where
  seqs : List (Nat × SeqDir)
deriving DecidableEq

/-- The dataset root: label directories keyed by label name. -/
structure Store where
  labels : List (String × LabelDir)
deriving DecidableEq

/-- Set a key's value in an association list, replacing the first binding or
appending a fresh one (directory creation / in-place file rewrite). -/
def assocSet [DecidableEq K] (l : List (K × V)) (k : K) (v : V) :
    List (K × V) :=
  match l with
  | [] => [(k, v)]
  | p :: ps => if p.1 = k then (k, v) :: ps else p :: assocSet ps k v

/-- Lexicographic (code point) strict order on character lists, as Python
compares strings. -/
def charsLt : List Char → List Char → Bool
  | [], [] => false
  | [], _ :: _ => true
  | _ :: _, [] => false
  | a :: as, b :: bs =>
      if a.val.toNat < b.val.toNat then true
      else if b.val.toNat < a.val.toNat then false
      else charsLt as bs

/-- Lexicographic order on strings. -/
def strLe (a b : String) : Bool := !(charsLt b.data a.data)

/-- Insert a string into a sorted list (ascending). -/
def insertSorted (x : String) : List String → List String
  | [] => [x]
  | y :: ys => if strLe x y then x :: y :: ys else y :: insertSorted x ys

/-- `sorted(...)` over a list of strings. -/
def sortStrings (l : List String) : List String :=
  l.foldr insertSorted []

/-- `get_dataset_labels`: the label directory names, sorted. -/
def get_dataset_labels (store : Store) : List String :=
  sortStrings (store.labels.map Prod.fst)

/-- `os.path.exists` on a label directory. -/
def labelExists (store : Store) (label : String) : Bool :=
  (store.labels.lookup label).isSome

/-- Look up a sequence directory under `label/idx`. -/
def lookupSeq (store : Store) (label : String) (idx : Nat) : Option SeqDir :=
  match store.labels.lookup label with
  | none => none
  | some ld => ld.seqs.lookup idx

/-- Write back a sequence directory at `label/idx`, creating the label and
sequence directories when absent (`os.makedirs(..., exist_ok=True)`). -/
def setSeq (store : Store) (label : String) (idx : Nat) (sd : SeqDir) :
    Store :=
  let ld := (store.labels.lookup label).getD ⟨[]⟩
  ⟨assocSet store.labels label ⟨assocSet ld.seqs idx sd⟩⟩

/-- `get_sequence_count`: the number of sequence sub-directories of a label
(0 when the label directory is absent); index gaps are irrelevant. -/
def get_sequence_count (store : Store) (label : String) : Nat :=
  match store.labels.lookup label with
  | none => 0
  | some ld => ld.seqs.length

/-- `rename_label`: fail when the old directory is absent or the new one
already exists, otherwise move the directory. -/
def rename_label (store : Store) (old_label new_label : String) :
    Bool × Store :=
  match store.labels.lookup old_label with
  | none => (false, store)
  | some ld =>
    if labelExists store new_label then (false, store)
    else
      (true,
       ⟨(store.labels.filter (fun p => p.1 ≠ old_label)) ++ [(new_label, ld)]⟩)

/-- `delete_sequence`: remove the sequence directory when present; always
reports success. -/
def delete_sequence (store : Store) (label : String) (idx : Nat) :
    Bool × Store :=
  match store.labels.lookup label with
  | none => (true, store)
  | some ld =>
    (true, ⟨assocSet store.labels label ⟨ld.seqs.filter (fun q => q.1 ≠ idx)⟩⟩)

/-- `save_sequence`: create `label/idx/` as needed and write the whole
sequence into the consolidated `keypoints.npy`, leaving any legacy frame
files in the directory untouched; reports success. -/
def save_sequence (store : Store) (label : String) (idx : Nat)
    (keypoints_sequence : List Frame) : Bool × Store :=
  let ld := (store.labels.lookup label).getD ⟨[]⟩
  let sd := (ld.seqs.lookup idx).getD ⟨none, []⟩
  (true, setSeq store label idx { sd with consolidated := some keypoints_sequence })

/-- `load_sequence`: `None` when `label/idx/` is absent; otherwise prefer the
consolidated file; otherwise read legacy frames `0..L-1`, substituting the
all-zero frame for each missing file, give up with `None` when no frame file
at all was found, and best-effort rewrite the result in consolidated form.
Returns the loaded value together with the (possibly migrated) store. -/
def load_sequence (store : Store) (label : String) (idx : Nat)
    (sequence_length : Nat := 30) : Option (List Frame) × Store :=
  match lookupSeq store label idx with
  | none => (none, store)
  | some sd =>
    match sd.consolidated with
    | some arr => (some arr, store)
    | none =>
      let found := (List.range sequence_length).map (fun i => sd.frames.lookup i)
      if found.any (fun o => o.isSome) then
        let arr := found.map (fun o => o.getD zeroFrame)
        (some arr, setSeq store label idx { sd with consolidated := some arr })
      else (none, store)

/-- `get_dataset_stats`: per-label sequence counts over the sorted label
list, plus totals. -/
structure DatasetStats where
  total_labels : Nat
  labels : List (String × Nat)
  total_sequences : Nat
deriving DecidableEq

/-- `get_dataset_stats` from `src/utils/file_ops.py`. -/
def get_dataset_stats (store : Store) : DatasetStats :=
  let labels := get_dataset_labels store
  { total_labels := labels.length,
    labels := labels.map (fun l => (l, get_sequence_count store l)),
    total_sequences :=
      (labels.map (fun l => get_sequence_count store l)).sum }

/-- `DatasetManager.save_captured_sequence` (preview image absent): pick the
next index as the current sequence count and save there. -/
def save_captured_sequence (store : Store) (label : String)
    (keypoints_sequence : List Frame) : Bool × Store :=
  save_sequence store label (get_sequence_count store label) keypoints_sequence

/-- The distinct result messages of `DatasetManager.validate_dataset`,
modelled structurally. -/
inductive ValidationMessage where
  | noLabels
  | insufficientLabels
  | insufficientSamples (label : String) (count : Nat) (minimum : Nat)
  | validSummary (total_labels : Nat) (total_sequences : Nat)
deriving DecidableEq

/-- The two messages that reject a dataset for having fewer than two labels
(the spec's InsufficientLabels category). -/
def ValidationMessage.isLabelShortage : ValidationMessage → Bool
  | .noLabels => true
  | .insufficientLabels => true
  | _ => false

/-- `DatasetManager.validate_dataset`: recompute fresh stats from the store,
then check label count and the per-label minimum of 5 sequences (the loop
with an early return is the first hit of `List.find?`). -/
def validate_dataset (store : Store) : Bool × ValidationMessage :=
  let stats := get_dataset_stats store
  if stats.total_labels = 0 then (false, .noLabels)
  else if stats.total_labels < 2 then (false, .insufficientLabels)
  else
    match stats.labels.find? (fun p => p.2 < 5) with
    | some p => (false, .insufficientSamples p.1 p.2 5)
    | none => (true, .validSummary stats.total_labels stats.total_sequences)

/-! ## Helper lemmas -/

theorem dequePush_length (n : Nat) (xs : List α) (x : α) :
    (dequePush n xs x).length = min (xs.length + 1) n := by
  unfold dequePush
  dsimp only
  split
  · rename_i h
    rw [List.length_drop]
    simp only [List.length_append, List.length_cons, List.length_nil] at *
    omega
  · rename_i h
    simp only [List.length_append, List.length_cons, List.length_nil] at *
    omega

theorem dequePush_le (n : Nat) (xs : List α) (x : α) :
    (dequePush n xs x).length ≤ n := by
  rw [dequePush_length]; omega

theorem dequePush_not_full (n : Nat) (xs : List α) (x : α)
    (h : xs.length < n) : dequePush n xs x = xs ++ [x] := by
  unfold dequePush
  dsimp only
  split
  · rename_i h2
    simp only [List.length_append, List.length_cons, List.length_nil] at h2
    omega
  · rfl

theorem dequePush_full (n : Nat) (xs : List α) (x : α)
    (hn : 0 < n) (h : xs.length = n) : dequePush n xs x = xs.tail ++ [x] := by
  unfold dequePush
  dsimp only
  split
  · rename_i h2
    have h3 : (xs ++ [x]).length - n = 1 := by
      simp only [List.length_append, List.length_cons, List.length_nil]; omega
    rw [h3, List.drop_append_of_le_length (by omega), List.drop_one]
  · rename_i h2
    simp only [List.length_append, List.length_cons, List.length_nil] at h2
    omega

theorem foldl_dequePush (L : Nat) (hL : 0 < L) :
    ∀ (fs acc : List α), acc.length ≤ L →
      List.foldl (dequePush L) acc fs =
        (acc ++ fs).drop (acc.length + fs.length - L) := by
  intro fs
  induction fs with
  | nil =>
    intro acc hacc
    simp only [List.foldl_nil, List.append_nil, List.length_nil]
    have h0 : acc.length + 0 - L = 0 := by omega
    rw [h0, List.drop_zero]
  | cons f fs ih =>
    intro acc hacc
    simp only [List.foldl_cons]
    rcases Nat.lt_or_ge acc.length L with hlt | hge
    · rw [dequePush_not_full L acc f hlt]
      have hlen1 : (acc ++ [f]).length ≤ L := by
        simp only [List.length_append, List.length_cons, List.length_nil]
        omega
      rw [ih (acc ++ [f]) hlen1]
      simp only [List.length_append, List.length_cons, List.length_nil,
        List.append_assoc, List.cons_append, List.nil_append]
      congr 1
      omega
    · have hfull : acc.length = L := by omega
      rw [dequePush_full L acc f hL hfull]
      have hlen2 : (acc.tail ++ [f]).length ≤ L := by
        simp only [List.length_append, List.length_tail, List.length_cons,
          List.length_nil]
        omega
      rw [ih (acc.tail ++ [f]) hlen2]
      have hne : acc ≠ [] := by
        intro hc; rw [hc] at hfull; simp only [List.length_nil] at hfull; omega
      obtain ⟨a, as, rfl⟩ := List.exists_cons_of_ne_nil hne
      simp only [List.tail_cons, List.length_append, List.length_cons,
        List.length_nil, List.cons_append, List.append_assoc, List.nil_append]
      simp only [List.length_cons] at hfull
      have h1 : as.length + 1 + (fs.length + 1) - L =
          (as.length + (fs.length + 1) - L) + 1 := by omega
      rw [h1, List.drop_succ_cons]
      congr 1
      omega

theorem predictFull_model_loaded (s : PredictorState) (th : ℚ)
    (out : Except Unit (List ℚ)) :
    ((Predictor.predictFull s th out).1).model_loaded = s.model_loaded := by
  rcases out with e | probs
  · rfl
  · unfold Predictor.predictFull
    dsimp only
    split_ifs <;> rfl

theorem predictFull_sequence (s : PredictorState) (th : ℚ)
    (out : Except Unit (List ℚ)) :
    ((Predictor.predictFull s th out).1).sequence = s.sequence := by
  rcases out with e | probs
  · rfl
  · unfold Predictor.predictFull
    dsimp only
    split_ifs <;> rfl

theorem predict_model_loaded (s : PredictorState) (classify : Cls)
    (k : Frame) (th : ℚ) :
    ((Predictor.predict s classify k th).1).model_loaded = s.model_loaded := by
  unfold Predictor.predict
  split
  · rfl
  · dsimp only
    split
    · rfl
    · rw [predictFull_model_loaded]

theorem predict_sequence (s : PredictorState) (classify : Cls)
    (k : Frame) (th : ℚ) (hm : s.model_loaded = true) :
    ((Predictor.predict s classify k th).1).sequence =
      dequePush SEQUENCE_LENGTH s.sequence k := by
  unfold Predictor.predict
  rw [hm]
  simp only [Bool.true_eq_false, if_false]
  split
  · rfl
  · rw [predictFull_sequence]

theorem runState_model_loaded (classify : Cls) (th : ℚ) (fs : List Frame)
    (s : PredictorState) :
    (runState classify th s fs).model_loaded = s.model_loaded := by
  induction fs generalizing s with
  | nil => rfl
  | cons f fs ih =>
    rw [runState, ih, predict_model_loaded]

theorem runState_sequence (classify : Cls) (th : ℚ) (fs : List Frame)
    (s : PredictorState) (hm : s.model_loaded = true) :
    (runState classify th s fs).sequence =
      List.foldl (dequePush SEQUENCE_LENGTH) s.sequence fs := by
  induction fs generalizing s with
  | nil => rfl
  | cons f fs ih =>
    rw [runState, List.foldl_cons]
    rw [ih _ (by rw [predict_model_loaded]; exact hm)]
    rw [predict_sequence s classify f th hm]

theorem predict_eq_early (s : PredictorState) (classify : Cls) (k : Frame)
    (th : ℚ) (hm : s.model_loaded = true)
    (hlt : (dequePush SEQUENCE_LENGTH s.sequence k).length < SEQUENCE_LENGTH) :
    Predictor.predict s classify k th =
      ({ s with sequence := dequePush SEQUENCE_LENGTH s.sequence k },
       (none, 0)) := by
  unfold Predictor.predict
  rw [hm]
  simp only [Bool.true_eq_false, if_false]
  rw [if_pos hlt]

theorem predict_eq_full (s : PredictorState) (classify : Cls) (k : Frame)
    (th : ℚ) (hm : s.model_loaded = true)
    (hge : SEQUENCE_LENGTH ≤ (dequePush SEQUENCE_LENGTH s.sequence k).length) :
    Predictor.predict s classify k th =
      Predictor.predictFull
        { s with sequence := dequePush SEQUENCE_LENGTH s.sequence k } th
        (classify (dequePush SEQUENCE_LENGTH s.sequence k)) := by
  unfold Predictor.predict
  rw [hm]
  simp only [Bool.true_eq_false, if_false]
  rw [if_neg (Nat.not_lt.mpr hge)]

/-! ## Claim C1 -/

/-- C1: once the sequence buffer holds L = 30 frames and the classifier
returns a probability distribution, `Predictor.predict` returns a stable
`(label, confidence)` pair if and only if the bounded prediction history
(after pushing the current frame's argmax class) holds C = 3 entries, all
identical, and the current confidence exceeds the threshold; otherwise it
returns no stable label together with the raw confidence — so a single
disagreeing frame immediately yields no stable prediction. -/
theorem claim1_stable_iff (s : PredictorState) (classify : Cls) (k : Frame)
    (th : ℚ) (probs : List ℚ)
    (hm : s.model_loaded = true)
    (hlen : s.sequence.length = SEQUENCE_LENGTH)
    (hok : classify (dequePush SEQUENCE_LENGTH s.sequence k) = Except.ok probs)
    (hne : probs ≠ []) :
    ((Predictor.predict s classify k th).2 =
      if (dequePush PREDICTION_CONSISTENCY_FRAMES s.predictions
              (argmaxQ probs)).length = PREDICTION_CONSISTENCY_FRAMES
          ∧ allEqual (dequePush PREDICTION_CONSISTENCY_FRAMES s.predictions
              (argmaxQ probs)) = true
          ∧ th < probs.getD (argmaxQ probs) 0
       then (some (labelFor s.labels (argmaxQ probs)),
             probs.getD (argmaxQ probs) 0)
       else (none, probs.getD (argmaxQ probs) 0))
    ∧ (((Predictor.predict s classify k th).2).1 ≠ none ↔
        ((dequePush PREDICTION_CONSISTENCY_FRAMES s.predictions
              (argmaxQ probs)).length = PREDICTION_CONSISTENCY_FRAMES
          ∧ allEqual (dequePush PREDICTION_CONSISTENCY_FRAMES s.predictions
              (argmaxQ probs)) = true
          ∧ th < probs.getD (argmaxQ probs) 0)) := by
  have hge : SEQUENCE_LENGTH ≤ (dequePush SEQUENCE_LENGTH s.sequence k).length := by
    rw [dequePush_length, hlen]; decide
  have hle := dequePush_le PREDICTION_CONSISTENCY_FRAMES s.predictions (argmaxQ probs)
  rw [predict_eq_full s classify k th hm hge, hok]
  unfold Predictor.predictFull
  dsimp only
  rw [if_neg hne]
  constructor
  · split_ifs with h1 h2 h2
    · rfl
    · exact absurd ⟨by omega, h1.2.1, h1.2.2⟩ h2
    · exact absurd ⟨by omega, h2.2.1, h2.2.2⟩ h1
    · rfl
  · split_ifs with h1
    · simp only [ne_eq, reduceCtorEq, not_false_eq_true, true_iff]
      exact ⟨by omega, h1.2.1, h1.2.2⟩
    · simp only [ne_eq, not_true_eq_false, false_iff, not_and]
      intro ha hb
      intro hc
      exact h1 ⟨by omega, hb, hc⟩

/-- Concrete stabilizer state: buffer full, history `[2, 2]`, labels bound. -/
def stateC1 : PredictorState :=
  { model_loaded := true, labels := ["hello", "thanks", "yes"],
    sequence := List.replicate 30 zeroFrame, predictions := [2, 2],
    current_prediction := none, current_confidence := 0 }

/-- A classifier constantly emitting 0.95 for class index 2. -/
def cls95 : Cls := fun _ => Except.ok [1/20, 0, 19/20]

/-- Witness for C1: the spec's own example — a third agreeing result for
class 2 at confidence 0.95 > 0.8 emits the stable pair. -/
theorem claim1_witness :
    (Predictor.predict stateC1 cls95 zeroFrame (8/10)).2 =
      (some "yes", 19/20) := by
  have h := claim1_stable_iff stateC1 cls95 zeroFrame (8/10) [1/20, 0, 19/20]
    rfl (by decide) rfl (by decide)
  rw [h.1]
  have hidx : argmaxQ [1/20, 0, 19/20] = 2 := by
    norm_num [argmaxQ, argmaxAux]
  rw [if_pos]
  · rw [hidx]
    norm_num [labelFor, stateC1]
  · rw [hidx]
    refine ⟨?_, ?_, ?_⟩
    · norm_num [stateC1, dequePush, PREDICTION_CONSISTENCY_FRAMES]
    · norm_num [stateC1, dequePush, allEqual, PREDICTION_CONSISTENCY_FRAMES]
    · norm_num

/-! ## Claim C2 -/

/-- C2: when the classifier raises during a full-buffer step,
`Predictor.predict` returns `(None, 0.0)` without propagating the exception
(`predict` stays a total function into a result pair), and the resulting
state differs from the input state only in the ring buffer — in particular
the bounded prediction history holds exactly the same entries as before, so
the failed frame pushes nothing and the next frame is processed normally. -/
theorem claim2_adapter_failure (s : PredictorState) (classify : Cls)
    (k : Frame) (th : ℚ)
    (hm : s.model_loaded = true)
    (hfull : SEQUENCE_LENGTH ≤ (dequePush SEQUENCE_LENGTH s.sequence k).length)
    (herr : classify (dequePush SEQUENCE_LENGTH s.sequence k) =
      Except.error ()) :
    Predictor.predict s classify k th =
      ({ s with sequence := dequePush SEQUENCE_LENGTH s.sequence k },
       (none, 0))
    ∧ ((Predictor.predict s classify k th).1).predictions = s.predictions := by
  have h := predict_eq_full s classify k th hm hfull
  rw [herr] at h
  exact ⟨h, by rw [h]; rfl⟩

/-- A classifier that always raises. -/
def clsErr : Cls := fun _ => Except.error ()

/-- Concrete state with a full buffer and a nonempty prediction history. -/
def stateC2 : PredictorState :=
  { model_loaded := true, labels := ["hello", "thanks"],
    sequence := List.replicate 30 zeroFrame, predictions := [1, 1],
    current_prediction := none, current_confidence := 0 }

/-- Witness for C2 at a concrete full-buffer state. -/
theorem claim2_witness :
    Predictor.predict stateC2 clsErr zeroFrame (8/10) =
      ({ stateC2 with
           sequence := dequePush SEQUENCE_LENGTH stateC2.sequence zeroFrame },
       (none, 0))
    ∧ ((Predictor.predict stateC2 clsErr zeroFrame (8/10)).1).predictions =
        stateC2.predictions :=
  claim2_adapter_failure stateC2 clsErr zeroFrame (8/10) rfl (by decide) rfl

/-! ## Claim C3 -/

/-- C3: the ring buffer never holds more than L = 30 frames; a push onto a
full buffer evicts exactly the oldest frame; and the snapshot of any push
stream is its suffix of the most recent L frames in original arrival order
(so pushing `f0..f40` leaves exactly `f11..f40`). -/
theorem claim3_ring_buffer :
    (∀ (fs : List Frame),
        (List.foldl (dequePush SEQUENCE_LENGTH) [] fs).length ≤
          SEQUENCE_LENGTH)
    ∧ (∀ (xs : List Frame) (x : Frame), xs.length = SEQUENCE_LENGTH →
        dequePush SEQUENCE_LENGTH xs x = xs.tail ++ [x])
    ∧ (∀ (fs : List Frame),
        List.foldl (dequePush SEQUENCE_LENGTH) [] fs =
          fs.drop (fs.length - SEQUENCE_LENGTH)) := by
  refine ⟨?_, ?_, ?_⟩
  · intro fs
    rw [foldl_dequePush SEQUENCE_LENGTH (by decide) fs []
      (by simp only [List.length_nil]; omega)]
    simp only [List.nil_append, List.length_nil, List.length_drop,
      Nat.zero_add]
    omega
  · intro xs x h
    exact dequePush_full _ xs x (by decide) h
  · intro fs
    rw [foldl_dequePush SEQUENCE_LENGTH (by decide) fs []
      (by simp only [List.length_nil]; omega)]
    simp only [List.nil_append, List.length_nil, Nat.zero_add]

/-- The frames `[f0], [f1], ..., [f(n-1)]` encoded as singleton vectors. -/
def rampFrames (n : Nat) : List Frame :=
  (List.range n).map (fun i => [(i : ℚ)])

/-- Witness for C3: the eviction equation on a concrete full buffer, and the
spec's own `f0..f40 ↦ f11..f40` instance. -/
theorem claim3_witness :
    dequePush SEQUENCE_LENGTH (rampFrames 30) [(30 : ℚ)] =
      (rampFrames 30).tail ++ [[(30 : ℚ)]]
    ∧ List.foldl (dequePush SEQUENCE_LENGTH) [] (rampFrames 41) =
        (rampFrames 41).drop 11 := by
  constructor
  · exact claim3_ring_buffer.2.1 (rampFrames 30) [(30 : ℚ)] (by decide)
  · have h := claim3_ring_buffer.2.2 (rampFrames 41)
    rw [show (rampFrames 41).length - SEQUENCE_LENGTH = 11 by decide] at h
    exact h

/-! ## Claim C4 -/

/-- The predictor state reached after feeding the first `i` frames of a
stream through `Predictor.predict`. -/
def stateAt (classify : Cls) (th : ℚ) (s0 : PredictorState)
    (frames : List Frame) (i : Nat) : PredictorState :=
  runState classify th s0 (frames.take i)

theorem stateAt_model_loaded (classify : Cls) (th : ℚ) (s0 : PredictorState)
    (frames : List Frame) (i : Nat) :
    (stateAt classify th s0 frames i).model_loaded = s0.model_loaded :=
  runState_model_loaded classify th (frames.take i) s0

theorem stateAt_sequence_length (classify : Cls) (th : ℚ)
    (s0 : PredictorState) (frames : List Frame) (i : Nat)
    (hm : s0.model_loaded = true) (hs : s0.sequence = [])
    (hi : i ≤ frames.length) :
    ((stateAt classify th s0 frames i).sequence).length =
      min i SEQUENCE_LENGTH := by
  unfold stateAt
  rw [runState_sequence classify th (frames.take i) s0 hm, hs]
  rw [foldl_dequePush SEQUENCE_LENGTH (by decide) (frames.take i) []
    (by simp only [List.length_nil]; omega)]
  simp only [List.nil_append, List.length_nil, Nat.zero_add,
    List.length_drop, List.length_take]
  omega

/-- C4: starting from a reset state with a loaded model, each of the first
L−1 calls (`i + 1 < L`, zero-based `i`) returns `(None, 0.0)` by the early
return that never applies the classifier (the right-hand side of the first
equation contains no use of `classify`), and from the Lth call onward every
call hands the full L-frame buffer to the classifier via
`Predictor.predictFull`; the buffer stays exactly full from then on. -/
theorem claim4_fill_then_classify :
    (∀ (s : PredictorState) (classify : Cls) (k : Frame) (th : ℚ),
        s.model_loaded = true → s.sequence.length = SEQUENCE_LENGTH →
        (((Predictor.predict s classify k th).1).sequence).length =
          SEQUENCE_LENGTH)
    ∧ (∀ (s0 : PredictorState) (classify : Cls) (th : ℚ)
          (frames : List Frame) (i : Nat) (hi : i < frames.length),
        s0.model_loaded = true → s0.sequence = [] →
        ((i + 1 < SEQUENCE_LENGTH →
           Predictor.predict (stateAt classify th s0 frames i) classify
               (frames.get ⟨i, hi⟩) th =
             ({ stateAt classify th s0 frames i with
                  sequence := dequePush SEQUENCE_LENGTH
                    ((stateAt classify th s0 frames i).sequence)
                    (frames.get ⟨i, hi⟩) },
              (none, 0)))
         ∧ (SEQUENCE_LENGTH ≤ i + 1 →
            (dequePush SEQUENCE_LENGTH
                ((stateAt classify th s0 frames i).sequence)
                (frames.get ⟨i, hi⟩)).length = SEQUENCE_LENGTH
            ∧ Predictor.predict (stateAt classify th s0 frames i) classify
                  (frames.get ⟨i, hi⟩) th =
                Predictor.predictFull
                  { stateAt classify th s0 frames i with
                      sequence := dequePush SEQUENCE_LENGTH
                        ((stateAt classify th s0 frames i).sequence)
                        (frames.get ⟨i, hi⟩) }
                  th
                  (classify (dequePush SEQUENCE_LENGTH
                     ((stateAt classify th s0 frames i).sequence)
                     (frames.get ⟨i, hi⟩)))))) := by
  constructor
  · intro s classify k th hm hlen
    rw [predict_sequence s classify k th hm, dequePush_length, hlen]
    omega
  · intro s0 classify th frames i hi hm hs
    have hml : (stateAt classify th s0 frames i).model_loaded = true := by
      rw [stateAt_model_loaded]; exact hm
    have hsl := stateAt_sequence_length classify th s0 frames i hm hs
      (Nat.le_of_lt hi)
    constructor
    · intro hlt
      apply predict_eq_early _ _ _ _ hml
      rw [dequePush_length, hsl]
      omega
    · intro hge
      have hplen : (dequePush SEQUENCE_LENGTH
          ((stateAt classify th s0 frames i).sequence)
          (frames.get ⟨i, hi⟩)).length = SEQUENCE_LENGTH := by
        rw [dequePush_length, hsl]
        have : (0 : Nat) < SEQUENCE_LENGTH := by decide
        omega
      exact ⟨hplen, predict_eq_full _ _ _ _ hml (by rw [hplen])⟩

/-- The empty-buffer state with a loaded model and no labels. -/
def stateC4 : PredictorState :=
  { model_loaded := true, labels := [], sequence := [], predictions := [],
    current_prediction := none, current_confidence := 0 }

/-- Witness for C4: at a full concrete buffer the length stays L, and the
very first call of a run returns `(None, 0.0)` by the early branch. -/
theorem claim4_witness :
    (((Predictor.predict stateC2 clsErr zeroFrame (8/10)).1).sequence).length
       = SEQUENCE_LENGTH
    ∧ Predictor.predict (stateAt clsErr (8/10) stateC4 [zeroFrame] 0) clsErr
          ([zeroFrame].get ⟨0, by decide⟩) (8/10) =
        ({ stateAt clsErr (8/10) stateC4 [zeroFrame] 0 with
             sequence := dequePush SEQUENCE_LENGTH
               ((stateAt clsErr (8/10) stateC4 [zeroFrame] 0).sequence)
               zeroFrame },
         (none, 0)) := by
  constructor
  · exact claim4_fill_then_classify.1 stateC2 clsErr zeroFrame (8/10) rfl
      (by decide)
  · exact (claim4_fill_then_classify.2 stateC4 clsErr (8/10) [zeroFrame] 0
      (by decide) rfl rfl).1 (by decide)

/-! ## Claim C10 -/

theorem predictFull_cases (s : PredictorState) (th : ℚ)
    (out : Except Unit (List ℚ)) :
    (((Predictor.predictFull s th out).2).1 = none
      ∧ ((Predictor.predictFull s th out).1).current_prediction =
          s.current_prediction
      ∧ ((Predictor.predictFull s th out).1).current_confidence =
          s.current_confidence)
    ∨ (∃ l, ((Predictor.predictFull s th out).2).1 = some l
        ∧ ((Predictor.predictFull s th out).1).current_prediction = some l
        ∧ ((Predictor.predictFull s th out).1).current_confidence =
            ((Predictor.predictFull s th out).2).2) := by
  rcases out with e | probs
  · left; exact ⟨rfl, rfl, rfl⟩
  · unfold Predictor.predictFull
    dsimp only
    split_ifs with h1 h2
    · left; exact ⟨rfl, rfl, rfl⟩
    · right; exact ⟨_, rfl, rfl, rfl⟩
    · left; exact ⟨rfl, rfl, rfl⟩

theorem predict_cases (s : PredictorState) (classify : Cls) (k : Frame)
    (th : ℚ) :
    (((Predictor.predict s classify k th).2).1 = none
      ∧ ((Predictor.predict s classify k th).1).current_prediction =
          s.current_prediction
      ∧ ((Predictor.predict s classify k th).1).current_confidence =
          s.current_confidence)
    ∨ (∃ l, ((Predictor.predict s classify k th).2).1 = some l
        ∧ ((Predictor.predict s classify k th).1).current_prediction = some l
        ∧ ((Predictor.predict s classify k th).1).current_confidence =
            ((Predictor.predict s classify k th).2).2) := by
  unfold Predictor.predict
  split
  · left; exact ⟨rfl, rfl, rfl⟩
  · dsimp only
    split
    · left; exact ⟨rfl, rfl, rfl⟩
    · exact predictFull_cases _ th _

/-- C10: `get_current_prediction` reads the stored stable pair; a predict
step whose per-call result is not stable leaves the stored pair untouched
(so later disagreeing or low-confidence frames do not clear it), a stable
step overwrites it with the emitted pair, and only `reset` — also invoked by
a successful `load_model` — clears it to `(None, 0.0)`. -/
theorem claim10_sticky_pair :
    (∀ s : PredictorState,
        Predictor.get_current_prediction s =
          (s.current_prediction, s.current_confidence))
    ∧ (∀ (s : PredictorState) (classify : Cls) (k : Frame) (th : ℚ),
        (((Predictor.predict s classify k th).2).1 = none →
          ((Predictor.predict s classify k th).1).current_prediction =
              s.current_prediction
            ∧ ((Predictor.predict s classify k th).1).current_confidence =
                s.current_confidence)
        ∧ (∀ l, ((Predictor.predict s classify k th).2).1 = some l →
            ((Predictor.predict s classify k th).1).current_prediction =
                some l
              ∧ ((Predictor.predict s classify k th).1).current_confidence =
                  ((Predictor.predict s classify k th).2).2))
    ∧ (∀ s : PredictorState,
        (Predictor.reset s).current_prediction = none
          ∧ (Predictor.reset s).current_confidence = 0)
    ∧ (∀ (s : PredictorState) (lbs : List String),
        ((Predictor.load_model s LoadOutcome.loaded lbs).1).current_prediction
            = none
          ∧ ((Predictor.load_model s LoadOutcome.loaded lbs).1).current_confidence
              = 0) := by
  refine ⟨fun s => rfl, ?_, fun s => ⟨rfl, rfl⟩, ?_⟩
  · intro s classify k th
    rcases predict_cases s classify k th with ⟨h1, h2, h3⟩ | ⟨l, h1, h2, h3⟩
    · refine ⟨fun _ => ⟨h2, h3⟩, ?_⟩
      intro l hl
      rw [h1] at hl
      exact absurd hl (by simp)
    · refine ⟨fun hn => ?_, ?_⟩
      · rw [h1] at hn
        exact absurd hn (by simp)
      · intro l2 hl
        rw [h1] at hl
        obtain rfl : l = l2 := Option.some_injective _ hl
        exact ⟨h2, h3⟩
  · intro s lbs
    unfold Predictor.load_model
    dsimp only
    split_ifs <;> exact ⟨rfl, rfl⟩

/-- Witness for C10: a frame processed while the buffer is still filling
emits no stable pair and leaves a previously stored pair untouched; reset
and a successful model load clear the pair. -/
theorem claim10_witness :
    (((Predictor.predict stateC1 clsErr zeroFrame (8/10)).1).current_prediction
        = stateC1.current_prediction
      ∧ ((Predictor.predict stateC1 clsErr zeroFrame (8/10)).1).current_confidence
          = stateC1.current_confidence)
    ∧ (Predictor.reset stateC1).current_prediction = none
    ∧ ((Predictor.load_model stateC1 LoadOutcome.loaded ["a"]).1).current_confidence
        = 0 := by
  refine ⟨?_, (claim10_sticky_pair.2.2.1 stateC1).1,
    (claim10_sticky_pair.2.2.2 stateC1 ["a"]).2⟩
  exact (claim10_sticky_pair.2.1 stateC1 clsErr zeroFrame (8/10)).1 rfl

/-! ## Store helper lemmas -/

theorem lookup_assocSet_self {K V : Type} [DecidableEq K] [BEq K]
    [LawfulBEq K] (l : List (K × V)) (k : K) (v : V) :
    (assocSet l k v).lookup k = some v := by
  induction l with
  | nil =>
    simp [assocSet, List.lookup]
  | cons p ps ih =>
    obtain ⟨a, b⟩ := p
    unfold assocSet
    dsimp only
    split_ifs with h
    · simp [List.lookup]
    · rw [List.lookup_cons]
      have hb : (k == a) = false := by
        rw [beq_eq_false_iff_ne]
        exact fun hc => h (hc ▸ rfl)
      rw [hb]
      exact ih

theorem lookupSeq_setSeq_self (store : Store) (label : String) (idx : Nat)
    (sd : SeqDir) :
    lookupSeq (setSeq store label idx sd) label idx = some sd := by
  unfold lookupSeq setSeq
  dsimp only
  rw [lookup_assocSet_self]
  dsimp only
  rw [lookup_assocSet_self]

/-- Loading right after saving at the same key yields the saved sequence. -/
theorem load_after_save (store : Store) (label : String) (idx : Nat)
    (seq : List Frame) (L : Nat) :
    (load_sequence ((save_sequence store label idx seq).2) label idx L).1 =
      some seq := by
  unfold save_sequence
  dsimp only
  unfold load_sequence
  rw [lookupSeq_setSeq_self]

/-- The legacy branch of `load_sequence`, described once a frame file is
present: every frame slot is read, missing files become the zero frame, and
the result is rewritten in consolidated form. -/
theorem load_sequence_legacy (store : Store) (label : String) (idx : Nat)
    (L : Nat) (sd : SeqDir)
    (hlook : lookupSeq store label idx = some sd)
    (hcons : sd.consolidated = none)
    (hfound : ∃ i, i < L ∧ (sd.frames.lookup i).isSome = true) :
    load_sequence store label idx L =
      (some ((List.range L).map
          (fun i => (sd.frames.lookup i).getD zeroFrame)),
       setSeq store label idx
         { sd with
           consolidated := some ((List.range L).map (fun i => (sd.frames.lookup i).getD zeroFrame)) }) := by
  unfold load_sequence
  rw [hlook]
  dsimp only
  rw [hcons]
  dsimp only
  rw [if_pos]
  · rw [List.map_map]
    rfl
  · rw [List.any_eq_true]
    obtain ⟨i, hi, hsome⟩ := hfound
    exact ⟨sd.frames.lookup i,
      List.mem_map_of_mem _ (List.mem_range.mpr hi), hsome⟩

/-! ## Claim C5 -/

/-- C5: save-then-load round-trips exactly, the legacy per-frame layout with
all L frames present loads back exactly the stored frames, and after any
successful load (which on the legacy path opportunistically rewrites the
sequence in consolidated form) every subsequent load of the same key yields
the same sequence. -/
theorem claim5_round_trip :
    (∀ (store : Store) (label : String) (idx : Nat) (seq : List Frame),
        seq.length = SEQUENCE_LENGTH →
        (load_sequence ((save_sequence store label idx seq).2) label idx
            SEQUENCE_LENGTH).1 = some seq)
    ∧ (∀ (store : Store) (label : String) (idx : Nat) (L : Nat) (sd : SeqDir)
          (seq : List Frame),
        0 < L → lookupSeq store label idx = some sd →
        sd.consolidated = none → seq.length = L →
        (∀ i, i < L → sd.frames.lookup i = seq[i]?) →
        (load_sequence store label idx L).1 = some seq)
    ∧ (∀ (store : Store) (label : String) (idx : Nat) (L : Nat)
          (v : List Frame),
        (load_sequence store label idx L).1 = some v →
        (load_sequence ((load_sequence store label idx L).2) label idx L).1 =
          some v) := by
  refine ⟨?_, ?_, ?_⟩
  · intro store label idx seq _
    exact load_after_save store label idx seq SEQUENCE_LENGTH
  · intro store label idx L sd seq hL hlook hcons hlen hframes
    have hfound : ∃ i, i < L ∧ (sd.frames.lookup i).isSome = true := by
      refine ⟨0, hL, ?_⟩
      rw [hframes 0 hL, List.getElem?_eq_getElem (by omega)]
      rfl
    rw [load_sequence_legacy store label idx L sd hlook hcons hfound]
    dsimp only
    congr 1
    refine List.ext_getElem ?_ ?_
    · simp only [List.length_map, List.length_range, hlen]
    · intro n h1 h2
      rw [List.getElem_map, List.getElem_range]
      have hn : n < L := by
        simpa only [List.length_map, List.length_range] using h1
      rw [hframes n hn, List.getElem?_eq_getElem (by omega)]
      rfl
  · intro store label idx L v hv
    cases hlook : lookupSeq store label idx with
    | none =>
      have heq : load_sequence store label idx L = (none, store) := by
        unfold load_sequence
        rw [hlook]
      rw [heq] at hv
      exact absurd hv (by simp)
    | some sd =>
      cases hcons : sd.consolidated with
      | some arr =>
        have heq : load_sequence store label idx L = (some arr, store) := by
          unfold load_sequence
          rw [hlook]
          dsimp only
          rw [hcons]
        rw [heq] at hv ⊢
        dsimp only
        rw [heq]
        exact hv
      | none =>
        by_cases hany : (((List.range L).map
            (fun i => sd.frames.lookup i)).any (fun o => o.isSome)) = true
        · have hfound : ∃ i, i < L ∧ (sd.frames.lookup i).isSome = true := by
            rw [List.any_eq_true] at hany
            obtain ⟨o, ho, hos⟩ := hany
            rw [List.mem_map] at ho
            obtain ⟨i, hir, rfl⟩ := ho
            exact ⟨i, List.mem_range.mp hir, hos⟩
          have heq := load_sequence_legacy store label idx L sd hlook hcons
            hfound
          rw [heq] at hv ⊢
          dsimp only at hv ⊢
          unfold load_sequence
          rw [lookupSeq_setSeq_self]
          exact hv
        · have heq : load_sequence store label idx L = (none, store) := by
            unfold load_sequence
            rw [hlook]
            dsimp only
            rw [hcons]
            dsimp only
            rw [if_neg hany]
          rw [heq] at hv
          exact absurd hv (by simp)

/-- A concrete 30-frame sequence. -/
def seqL : List Frame := (List.range 30).map (fun i => [(i : ℚ)])

/-- A legacy sequence directory holding all 30 numbered frame files. -/
def legacySD : SeqDir := ⟨none, (List.range 30).map (fun i => (i, [(i : ℚ)]))⟩

/-- A store whose only sequence is stored in legacy per-frame layout. -/
def legacyStore : Store := ⟨[("A", ⟨[(0, legacySD)]⟩)]⟩

/-- Witness for C5: concrete consolidated round-trip, concrete legacy load,
and stability of a reload after the legacy migration. -/
theorem claim5_witness :
    (load_sequence ((save_sequence ⟨[]⟩ "A" 0 seqL).2) "A" 0
        SEQUENCE_LENGTH).1 = some seqL
    ∧ (load_sequence legacyStore "A" 0 30).1 = some seqL
    ∧ (load_sequence ((load_sequence legacyStore "A" 0 30).2) "A" 0 30).1 =
        some seqL := by
  have h2 : (load_sequence legacyStore "A" 0 30).1 = some seqL :=
    claim5_round_trip.2.1 legacyStore "A" 0 30 legacySD seqL (by decide) rfl
      rfl (by decide) (by decide)
  exact ⟨claim5_round_trip.1 ⟨[]⟩ "A" 0 seqL (by decide), h2,
    claim5_round_trip.2.2 legacyStore "A" 0 30 seqL h2⟩

/-! ## Claim C6 -/

/-- A sequence directory that exists but holds neither a consolidated file
nor any numbered frame file. -/
def emptySeqStore : Store := ⟨[("A", ⟨[(0, ⟨none, []⟩)]⟩)]⟩

/-- Counterexample to C6 as stated: a sequence directory that exists and has
no consolidated file, yet `load_sequence` returns `None` (a not-found
result) instead of a sequence of 30 zero frames — because the code gives up
when no frame file at all was found. -/
theorem claim6_counterexample :
    lookupSeq emptySeqStore "A" 0 = some ⟨none, []⟩
    ∧ (load_sequence emptySeqStore "A" 0 30).1 = none := by
  exact ⟨rfl, rfl⟩

/-- C6 (amended): for a legacy-layout directory in which at least one
numbered frame file with index below L exists, the load returns exactly L
frames, reading each existing frame file and substituting the all-zero
frame for each missing one, and never fails. -/
theorem claim6_legacy_lenient (store : Store) (label : String) (idx : Nat)
    (L : Nat) (sd : SeqDir)
    (hlook : lookupSeq store label idx = some sd)
    (hcons : sd.consolidated = none)
    (hfound : ∃ i, i < L ∧ (sd.frames.lookup i).isSome = true) :
    (load_sequence store label idx L).1 =
      some ((List.range L).map (fun i => (sd.frames.lookup i).getD zeroFrame))
    ∧ ((List.range L).map
        (fun i => (sd.frames.lookup i).getD zeroFrame)).length = L := by
  constructor
  · rw [load_sequence_legacy store label idx L sd hlook hcons hfound]
  · simp only [List.length_map, List.length_range]

/-- The spec's example: legacy frames 0..29 with frame 5 missing. -/
def legacySDgap : SeqDir :=
  ⟨none, ((List.range 30).filter (fun i => i ≠ 5)).map
      (fun i => (i, [(i : ℚ)]))⟩

/-- A store holding only that partially-captured legacy sequence. -/
def gapStore : Store := ⟨[("A", ⟨[(0, legacySDgap)]⟩)]⟩

/-- Witness for the amended C6 at the spec's frame-5-missing example. -/
theorem claim6_witness :
    (load_sequence gapStore "A" 0 30).1 =
      some ((List.range 30).map
        (fun i => (legacySDgap.frames.lookup i).getD zeroFrame))
    ∧ ((List.range 30).map
        (fun i => (legacySDgap.frames.lookup i).getD zeroFrame)).length = 30 :=
  claim6_legacy_lenient gapStore "A" 0 30 legacySDgap rfl rfl
    ⟨0, by decide, by decide⟩

/-! ## Claim C7 -/

/-- A store already holding a sequence at key ("A", 0). -/
def storeC7 : Store := ⟨[("A", ⟨[(0, ⟨some [[5]], []⟩)]⟩)]⟩

/-- Counterexample to C7 as stated: `save_sequence` to an occupied key is
not rejected — it reports success and the stored values change. -/
theorem claim7_counterexample :
    (load_sequence storeC7 "A" 0 30).1 = some [[5]]
    ∧ (save_sequence storeC7 "A" 0 [[7]]).1 = true
    ∧ (load_sequence ((save_sequence storeC7 "A" 0 [[7]]).2) "A" 0 30).1 =
        some [[7]] := by
  exact ⟨rfl, rfl, rfl⟩

/-- C7 (amended): `save_sequence` always succeeds and unconditionally
overwrites whatever is stored at the same (label, index) key, and
`DatasetManager.save_captured_sequence` picks the next index as the current
sequence count — an index that can collide with an existing sequence when
deletions have left gaps, silently overwriting it. -/
theorem claim7_amended (store : Store) (label : String) (idx : Nat)
    (seq : List Frame) :
    (save_sequence store label idx seq).1 = true
    ∧ (load_sequence ((save_sequence store label idx seq).2) label idx
        SEQUENCE_LENGTH).1 = some seq
    ∧ save_captured_sequence store label seq =
        save_sequence store label (get_sequence_count store label) seq :=
  ⟨rfl, load_after_save store label idx seq SEQUENCE_LENGTH, rfl⟩

/-! ## Claim C8 -/

/-- C8: `rename_label` succeeds exactly when the old label exists and the
new one does not; any failure (old absent, or new already present) returns a
`false` result without raising and leaves the store — both labels' on-disk
contents included — exactly as it was. -/
theorem claim8_rename_guard (store : Store) (old_label new_label : String) :
    ((rename_label store old_label new_label).1 = true ↔
      (labelExists store old_label = true
        ∧ labelExists store new_label = false))
    ∧ ((rename_label store old_label new_label).1 = false →
        (rename_label store old_label new_label).2 = store) := by
  unfold rename_label
  cases h : store.labels.lookup old_label with
  | none =>
    refine ⟨?_, fun _ => rfl⟩
    unfold labelExists
    rw [h]
    simp
  | some ld =>
    dsimp only
    split_ifs with hnew
    · refine ⟨?_, fun _ => rfl⟩
      rw [hnew]
      simp
    · refine ⟨?_, fun hc => absurd hc (by simp)⟩
      unfold labelExists
      rw [h]
      simp only [Option.isSome_some, true_and, true_iff]
      exact Bool.not_eq_true _ ▸ hnew

/-- A store where label "B" already has a sequence. -/
def storeC8 : Store :=
  ⟨[("A", ⟨[]⟩), ("B", ⟨[(0, ⟨some [[1]], []⟩)]⟩)]⟩

/-- Witness for C8: renaming "A" onto the occupied "B" fails and leaves the
store untouched. -/
theorem claim8_witness :
    (rename_label storeC8 "A" "B").2 = storeC8 :=
  (claim8_rename_guard storeC8 "A" "B").2 (by decide)

/-! ## Claim C9 -/

/-- C9: `validate_dataset` recomputes statistics from the store (it is a
function of the store alone) and: with fewer than 2 labels it fails with a
label-shortage message (the InsufficientLabels category — the distinct
zero-label and one-label wordings of the code are both in it); with ≥ 2
labels and some label counting fewer than 5 sequences it fails naming such a
label, its count (the number of existing sequence sub-entries, index gaps
notwithstanding), and the minimum 5; otherwise it succeeds with the summary
message. -/
theorem claim9_validate (store : Store) :
    (((get_dataset_labels store).length < 2 →
        (validate_dataset store).1 = false
        ∧ ((validate_dataset store).2).isLabelShortage = true))
    ∧ (2 ≤ (get_dataset_labels store).length →
        (∃ l ∈ get_dataset_labels store, get_sequence_count store l < 5) →
        ∃ l c, validate_dataset store =
            (false, ValidationMessage.insufficientSamples l c 5)
          ∧ l ∈ get_dataset_labels store
          ∧ get_sequence_count store l = c ∧ c < 5)
    ∧ (2 ≤ (get_dataset_labels store).length →
        (∀ l ∈ get_dataset_labels store, 5 ≤ get_sequence_count store l) →
        validate_dataset store =
          (true, ValidationMessage.validSummary
            (get_dataset_stats store).total_labels
            (get_dataset_stats store).total_sequences)) := by
  refine ⟨?_, ?_, ?_⟩
  · intro hlt
    unfold validate_dataset get_dataset_stats
    dsimp only
    by_cases h0 : (get_dataset_labels store).length = 0
    · rw [if_pos h0]
      exact ⟨rfl, rfl⟩
    · rw [if_neg h0, if_pos hlt]
      exact ⟨rfl, rfl⟩
  · intro hge hex
    unfold validate_dataset get_dataset_stats
    dsimp only
    rw [if_neg (by omega), if_neg (by omega)]
    cases hf : ((get_dataset_labels store).map
        (fun l => (l, get_sequence_count store l))).find?
          (fun p => decide (p.2 < 5)) with
    | none =>
      obtain ⟨l, hl, hc⟩ := hex
      have hmem : (l, get_sequence_count store l) ∈
          (get_dataset_labels store).map
            (fun l => (l, get_sequence_count store l)) :=
        List.mem_map_of_mem _ hl
      have hpred : (fun p : String × Nat => decide (p.2 < 5))
          (l, get_sequence_count store l) = true := by
        simpa using hc
      have hsome := (@List.find?_isSome (String × Nat) _
          (fun p => decide (p.2 < 5))).mpr
        ⟨(l, get_sequence_count store l), hmem, hpred⟩
      rw [hf] at hsome
      exact absurd hsome (by simp)
    | some p =>
      dsimp only
      have hp := List.find?_some hf
      have hmem := List.mem_of_find?_eq_some hf
      rw [List.mem_map] at hmem
      obtain ⟨l, hl, hlp⟩ := hmem
      subst hlp
      exact ⟨l, get_sequence_count store l, rfl, hl, rfl, by simpa using hp⟩
  · intro hge hall
    unfold validate_dataset get_dataset_stats
    dsimp only
    rw [if_neg (by omega), if_neg (by omega)]
    cases hf : ((get_dataset_labels store).map
        (fun l => (l, get_sequence_count store l))).find?
          (fun p => decide (p.2 < 5)) with
    | none =>
      rfl
    | some p =>
      have hp := List.find?_some hf
      have hmem := List.mem_of_find?_eq_some hf
      rw [List.mem_map] at hmem
      obtain ⟨l, hl, hlp⟩ := hmem
      subst hlp
      have h5 := hall l hl
      simp only [decide_eq_true_eq] at hp
      omega

/-- A one-label dataset. -/
def storeOne : Store := ⟨[("A", ⟨[]⟩)]⟩

/-- Five saved sequences, indices 0..4. -/
def fiveSeqs : List (Nat × SeqDir) :=
  (List.range 5).map (fun i => (i, ⟨some [[1]], []⟩))

/-- Two labels, "B" having only 3 sequences. -/
def storeSmallB : Store :=
  ⟨[("A", ⟨fiveSeqs⟩),
    ("B", ⟨[(0, ⟨some [[1]], []⟩), (1, ⟨some [[1]], []⟩),
            (2, ⟨some [[1]], []⟩)]⟩)]⟩

/-- Two labels with five sequences each. -/
def storeValid : Store := ⟨[("A", ⟨fiveSeqs⟩), ("B", ⟨fiveSeqs⟩)]⟩

/-- Witness for C9: one label fails the label check, a 3-sequence label
fails the sample check, and a 2×5 dataset validates. -/
theorem claim9_witness :
    ((validate_dataset storeOne).1 = false
      ∧ ((validate_dataset storeOne).2).isLabelShortage = true)
    ∧ (∃ l c, validate_dataset storeSmallB =
          (false, ValidationMessage.insufficientSamples l c 5)
        ∧ l ∈ get_dataset_labels storeSmallB
        ∧ get_sequence_count storeSmallB l = c ∧ c < 5)
    ∧ validate_dataset storeValid =
        (true, ValidationMessage.validSummary
          (get_dataset_stats storeValid).total_labels
          (get_dataset_stats storeValid).total_sequences) :=
  ⟨(claim9_validate storeOne).1 (by decide),
   (claim9_validate storeSmallB).2.1 (by decide) ⟨"B", by decide, by decide⟩,
   (claim9_validate storeValid).2.2 (by decide) (by decide)⟩
